import Mathlib

/-!
Shallow embedding of the terminal-session manager of `src/main.ts` and the
tip-viewer index arithmetic of the tip viewer component, together with proofs
of the specification claims about them.

The session registry `ptyMap : Map<number, PtyTuple>` is modelled as an
insertion-ordered association list with unique keys (JS `Map` semantics);
handlers are modelled as pure functions from the registry to a result record
collecting the new registry plus every observable effect the handler performs
(messages sent on the IPC channel, `destroy()` calls, `write`/`resize` calls
on pty handles, and log lines).
-/

set_option autoImplicit false

namespace Extraterm

/-- `interface PtyTuple { windowId: number; ptyTerm: pty.Terminal }` from
`main.ts`.  A pty handle (`pty.Terminal`) is identified by a natural number. -/
structure PtyTuple where
  windowId : Nat
  ptyTerm : Nat
  deriving DecidableEq, Repr

/-- The `ptyMap : Map<number, PtyTuple>` registry, as an insertion-ordered
association list of `(ptyId, tuple)` entries. -/
abbrev Registry := List (Nat × PtyTuple)

/-- `ptyMap.get(k)`: the value stored under key `k`, if any. -/
def mapGet : Registry → Nat → Option PtyTuple
  | [], _ => none
  | (k', v) :: rest, k => if k' = k then some v else mapGet rest k

/-- `ptyMap.set(k, v)`: replaces the entry under `k` in place if present,
otherwise appends it (JS `Map` insertion-order semantics). -/
def mapSet : Registry → Nat → PtyTuple → Registry
  | [], k, v => [(k, v)]
  | (k', v') :: rest, k, v =>
    if k' = k then (k, v) :: rest else (k', v') :: mapSet rest k v

/-- `ptyMap.delete(k)`: removes the entry under `k` (JS `Map` keys are unique,
so removing the first occurrence removes the entry). -/
def mapDelete : Registry → Nat → Registry
  | [], _ => []
  | (k', v') :: rest, k =>
    if k' = k then rest else (k', v') :: mapDelete rest k

/-- A theme object as produced by `JSON.parse` on a `theme.json` file: the
`name` field may be absent (`none`) or any string. -/
structure ThemeJson where
  name : Option String
  deriving DecidableEq, Repr

/-- `validateThemeInfo`: `_.isString(themeinfo.name) && themeinfo.name !== ""`. -/
def validateThemeInfo (themeinfo : ThemeJson) : Bool :=
  match themeinfo.name with
  | some s => s != ""
  | none => false

/-- The messages exchanged on the IPC channel, as used in `main.ts`
(`Messages.MessageType` cases of `handleAsyncIpc` plus the replies it builds);
`unknownTag` stands for any type tag outside the recognized set. -/
inductive Msg where
  | configRequest
  | frameDataRequest
  | themesRequest
  | ptyCreate (command : String) (args : List String) (columns rows : Nat)
  | ptyResize (id columns rows : Nat)
  | ptyInput (id : Nat) (data : String)
  | ptyClose (id : Nat)
  | configMsg
  | themesMsg (themeList : List (String × ThemeJson))
  | ptyCreated (id : Nat)
  | ptyOutput (id : Nat) (data : String)
  | unknownTag (tag : Nat)
  deriving DecidableEq, Repr

/-- Result of running one registry-touching handler: the registry afterwards
plus every observable effect (channel messages sent, pty handles destroyed,
data written to ptys, resizes applied to ptys, log lines). -/
structure HandlerResult where
  map : Registry
  sent : List Msg
  destroyed : List Nat
  writes : List (Nat × String)
  resizes : List (Nat × Nat × Nat)
  logs : List String
  deriving DecidableEq, Repr

/-- The advisory logged by `handlePtyInput`, `handlePtyResize` and
`handlePtyClose` when the id is not in the registry. -/
def warnAbsent : String := "WARNING: Input arrived for a terminal which doesn't exist."

/-- `handlePtyInput`: writes the data to the pty if the id is registered,
otherwise logs an advisory and returns. -/
def handlePtyInput (m : Registry) (id : Nat) (data : String) : HandlerResult :=
  match mapGet m id with
  | none => ⟨m, [], [], [], [], [warnAbsent]⟩
  | some tup => ⟨m, [], [], [(tup.ptyTerm, data)], [], []⟩

/-- `handlePtyResize`: resizes the pty if the id is registered, otherwise logs
an advisory and returns. -/
def handlePtyResize (m : Registry) (id columns rows : Nat) : HandlerResult :=
  match mapGet m id with
  | none => ⟨m, [], [], [], [], [warnAbsent]⟩
  | some tup => ⟨m, [], [], [], [(tup.ptyTerm, columns, rows)], []⟩

/-- `handlePtyClose`: destroys the pty and deletes the registry entry if the id
is registered, otherwise logs an advisory and returns. -/
def handlePtyClose (m : Registry) (id : Nat) : HandlerResult :=
  match mapGet m id with
  | none => ⟨m, [], [], [], [], [warnAbsent]⟩
  | some tup => ⟨mapDelete m id, [], [tup.ptyTerm], [], [], []⟩

/-- The `term.on('data', ...)` handler installed by `createPty`: it sends a
`PTY_OUTPUT` message for the captured `ptyId` unconditionally — it never
consults `ptyMap`. -/
def onPtyData (ptyId : Nat) (data : String) (m : Registry) : HandlerResult :=
  ⟨m, [Msg.ptyOutput ptyId data], [], [], [], ["pty process got data for ptyID", data]⟩

/-- The `term.on('exit', ...)` handler installed by `createPty`: it sends a
`PTY_CLOSE` message for the captured `ptyId`, destroys the captured `term`, and
deletes the entry — all unconditionally, without consulting `ptyMap` first. -/
def onPtyExit (ptyId term : Nat) (m : Registry) : HandlerResult :=
  ⟨mapDelete m ptyId, [Msg.ptyClose ptyId], [term], [], [], ["pty process exited."]⟩

/-- The module-level mutable state of `main.ts` that `createPty` touches:
`ptyCounter` and `ptyMap`. -/
structure MainState where
  ptyCounter : Nat
  ptyMap : Registry
  deriving DecidableEq, Repr

/-- Outcome of the `pty.spawn` OS call: a fresh pty handle, or a thrown
spawn error. -/
inductive SpawnResult where
  | ok (term : Nat)
  | fail
  deriving DecidableEq, Repr

/-- `createPty`: spawns the pty first; on success increments `ptyCounter`,
takes the new counter value as the session id and registers the session.  If
`pty.spawn` throws, the exception propagates (`Except.error`) before the
counter is incremented or the map is touched. -/
def createPty (s : MainState) (windowId : Nat) (spawn : SpawnResult) :
    Except Unit (Nat × MainState) :=
  match spawn with
  | .fail => .error ()
  | .ok term =>
    let ptyId := s.ptyCounter + 1
    .ok (ptyId, ⟨ptyId, mapSet s.ptyMap ptyId ⟨windowId, term⟩⟩)

/-- One iteration of the `keys.forEach` loop in `cleanUpPtyWindow`: looks the
key up in the current map and, if its tuple belongs to the closed window,
destroys the pty and deletes the entry.  (A key snapshotted from the map is
always still present when visited, since only other keys are deleted.) -/
def cleanUpStep (windowId : Nat) (acc : Registry × List Nat) (k : Nat) :
    Registry × List Nat :=
  match mapGet acc.1 k with
  | none => acc
  | some tup =>
    if tup.windowId = windowId then (mapDelete acc.1 k, acc.2 ++ [tup.ptyTerm])
    else acc

/-- `cleanUpPtyWindow`: snapshots all keys of `ptyMap`, then for each key
destroys and deletes the session when its `windowId` matches the closed
window.  Returns the registry afterwards and the destroyed handles in order. -/
def cleanUpPtyWindow (m : Registry) (windowId : Nat) : Registry × List Nat :=
  (m.map Prod.fst).foldl (cleanUpStep windowId) (m, [])

/-- The log line `handleAsyncIpc` prints for every incoming message. -/
def incomingLog : String := "Main IPC incoming: "

/-- Overall result of one `handleAsyncIpc` call.  `crashed` records that an
exception escaped the handler (only a `pty.spawn` failure can throw; nothing
in `main.ts` catches it). -/
structure IpcResult where
  crashed : Bool
  state : MainState
  sent : List Msg
  destroyed : List Nat
  writes : List (Nat × String)
  resizes : List (Nat × Nat × Nat)
  logs : List String
  deriving DecidableEq, Repr

/-- Lifts a registry-handler result (for a message with no reply) into an
`IpcResult`, prepending the incoming-message log line. -/
def ofHandler (s : MainState) (r : HandlerResult) : IpcResult :=
  ⟨false, ⟨s.ptyCounter, r.map⟩, r.sent, r.destroyed, r.writes, r.resizes,
    incomingLog :: r.logs⟩

/-- `handleAsyncIpc`: logs the incoming message, dispatches on its type tag,
and sends the reply when the matched case produced one.  The `default` case of
the `switch` (any unrecognized tag, and the core-to-UI tags) does nothing.
`senderWindowId` is `BrowserWindow.fromWebContents(sender).id`. -/
def handleAsyncIpc (s : MainState) (themeList : List (String × ThemeJson))
    (senderWindowId : Nat) (spawn : SpawnResult) (msg : Msg) : IpcResult :=
  match msg with
  | .configRequest => ⟨false, s, [Msg.configMsg], [], [], [], [incomingLog]⟩
  | .frameDataRequest =>
    ⟨false, s, [], [], [], [],
      [incomingLog, "Messages.MessageType.FRAME_DATA_REQUEST is not implemented."]⟩
  | .themesRequest => ⟨false, s, [Msg.themesMsg themeList], [], [], [], [incomingLog]⟩
  | .ptyCreate _ _ _ _ =>
    match createPty s senderWindowId spawn with
    | .error _ => ⟨true, s, [], [], [], [], [incomingLog]⟩
    | .ok (id, s') => ⟨false, s', [Msg.ptyCreated id], [], [], [], [incomingLog]⟩
  | .ptyResize id columns rows => ofHandler s (handlePtyResize s.ptyMap id columns rows)
  | .ptyInput id data => ofHandler s (handlePtyInput s.ptyMap id data)
  | .ptyClose id => ofHandler s (handlePtyClose s.ptyMap id)
  | _ => ⟨false, s, [], [], [], [], [incomingLog]⟩

/-- One entry of the themes directory as `scanThemes` observes it: either
reading/parsing `item/theme.json` throws (`unreadable`) or it yields a parsed
theme object. -/
inductive DirEntry where
  | unreadable (item : String)
  | parsed (item : String) (info : ThemeJson)
  deriving DecidableEq, Repr

/-- The directory name of an entry. -/
def entryItem : DirEntry → String
  | .unreadable item => item
  | .parsed item _ => item

/-- `thememap.set(item, themeinfo)` on the immutable string-keyed theme map. -/
def themeMapSet : List (String × ThemeJson) → String → ThemeJson → List (String × ThemeJson)
  | [], k, v => [(k, v)]
  | (k', v') :: rest, k, v =>
    if k' = k then (k, v) :: rest else (k', v') :: themeMapSet rest k v

/-- The `contents.forEach` loop of `scanThemes`: unreadable entries only log a
warning; parsed entries are added when `validateThemeInfo` accepts them. -/
def scanThemesLoop : List DirEntry → List (String × ThemeJson) → List (String × ThemeJson)
  | [], acc => acc
  | .unreadable _ :: rest, acc => scanThemesLoop rest acc
  | .parsed item info :: rest, acc =>
    if validateThemeInfo info then scanThemesLoop rest (themeMapSet acc item info)
    else scanThemesLoop rest acc

/-- `scanThemes`: when `fs.existsSync(themesdir)` is true (`some entries`),
folds the directory contents into a theme map and returns it; when the
directory is missing (`none`), control falls off the end of the function and
it returns `undefined` — modelled as `none`. -/
def scanThemes : Option (List DirEntry) → Option (List (String × ThemeJson))
  | none => none
  | some entries => some (scanThemesLoop entries [])

/-- The entry a directory item contributes to the theme map: `some` exactly
when it parsed and passed `validateThemeInfo`. -/
def validEntry : DirEntry → Option (String × ThemeJson)
  | .unreadable _ => none
  | .parsed item info => if validateThemeInfo info then some (item, info) else none

/-- The next-button handler of the tip viewer:
`this._tipIndex = (this._tipIndex + 1) % this._getTipCount()`. -/
def nextTipIndex (tipCount tipIndex : Nat) : Nat :=
  (tipIndex + 1) % tipCount

/-- The previous-button handler of the tip viewer:
`this._tipIndex = (this._tipIndex + this._getTipCount() - 1) % this._getTipCount()`. -/
def previousTipIndex (tipCount tipIndex : Nat) : Nat :=
  (tipIndex + tipCount - 1) % tipCount

/-- The operations that touch `ptyCounter` or `ptyMap` during one process
lifetime: a create request (with its spawn outcome), UI-side close / input /
resize requests, pty data / exit events (with the id and handle captured by
the closures), and a window-closed cleanup. -/
inductive Op where
  | create (windowId : Nat) (spawn : SpawnResult)
  | closeReq (id : Nat)
  | inputReq (id : Nat) (data : String)
  | resizeReq (id columns rows : Nat)
  | dataEvt (id : Nat) (data : String)
  | exitEvt (id term : Nat)
  | windowClosed (windowId : Nat)
  deriving DecidableEq, Repr

/-- Runs one operation on the module state; the second component lists the
session id returned by `createPty` when the operation was a successful
create. -/
def runOp (s : MainState) : Op → MainState × List Nat
  | .create wid spawn =>
    match createPty s wid spawn with
    | .error _ => (s, [])
    | .ok (id, s') => (s', [id])
  | .closeReq id => (⟨s.ptyCounter, (handlePtyClose s.ptyMap id).map⟩, [])
  | .inputReq id data => (⟨s.ptyCounter, (handlePtyInput s.ptyMap id data).map⟩, [])
  | .resizeReq id columns rows =>
    (⟨s.ptyCounter, (handlePtyResize s.ptyMap id columns rows).map⟩, [])
  | .dataEvt id data => (⟨s.ptyCounter, (onPtyData id data s.ptyMap).map⟩, [])
  | .exitEvt id term => (⟨s.ptyCounter, (onPtyExit id term s.ptyMap).map⟩, [])
  | .windowClosed wid => (⟨s.ptyCounter, (cleanUpPtyWindow s.ptyMap wid).1⟩, [])

/-- Runs a sequence of operations, collecting all created session ids in call
order. -/
def runOps (s : MainState) : List Op → MainState × List Nat
  | [] => (s, [])
  | op :: rest =>
    let r := runOp s op
    let r' := runOps r.1 rest
    (r'.1, r.2 ++ r'.2)

/-- The state of `main.ts` at startup: `ptyCounter = 0`, empty `ptyMap`. -/
def initialState : MainState := ⟨0, []⟩

/-! ### Lemmas about the registry map operations -/

theorem mapGet_eq_none_iff (m : Registry) (k : Nat) :
    mapGet m k = none ↔ k ∉ m.map Prod.fst := by
  induction m with
  | nil => simp [mapGet]
  | cons p rest ih =>
    obtain ⟨k', v⟩ := p
    by_cases h : k' = k
    · subst h
      simp [mapGet]
    · simp [mapGet, h, ih, Ne.symm h]

theorem mapGet_mapDelete_ne (m : Registry) (i k : Nat) (h : k ≠ i) :
    mapGet (mapDelete m i) k = mapGet m k := by
  induction m with
  | nil => rfl
  | cons p rest ih =>
    obtain ⟨k', v⟩ := p
    by_cases h1 : k' = i
    · subst h1
      simp [mapDelete, mapGet, Ne.symm h]
    · by_cases h2 : k' = k <;> simp [mapDelete, mapGet, h, h1, h2, ih]

theorem mapGet_mapDelete_self (m : Registry) (i : Nat)
    (hnd : (m.map Prod.fst).Nodup) : mapGet (mapDelete m i) i = none := by
  induction m with
  | nil => rfl
  | cons p rest ih =>
    obtain ⟨k', v⟩ := p
    simp only [List.map_cons, List.nodup_cons] at hnd
    by_cases h1 : k' = i
    · subst h1
      simpa [mapDelete, mapGet_eq_none_iff] using hnd.1
    · simp [mapDelete, mapGet, h1, ih hnd.2]

/-! ### Claim theorems: handler-level error handling and lifecycle -/

/-- Claim C3: for a registered session whose process signals exit, the exit
handler emits exactly one Close message carrying the session id, destroys the
process handle exactly once, and deletes the session's registry entry, leaving
every other session's entry untouched. -/
theorem onPtyExit_closes_session (m : Registry) (i : Nat) (tup : PtyTuple)
    (hnd : (m.map Prod.fst).Nodup) (h : mapGet m i = some tup) :
    (onPtyExit i tup.ptyTerm m).sent = [Msg.ptyClose i] ∧
    (onPtyExit i tup.ptyTerm m).destroyed = [tup.ptyTerm] ∧
    mapGet (onPtyExit i tup.ptyTerm m).map i = none ∧
    ∀ k, k ≠ i → mapGet (onPtyExit i tup.ptyTerm m).map k = mapGet m k := by
  refine ⟨rfl, rfl, mapGet_mapDelete_self m i hnd, ?_⟩
  intro k hk
  exact mapGet_mapDelete_ne m i k hk

theorem onPtyExit_closes_session_witness :
    (onPtyExit 5 42 [(5, (⟨7, 42⟩ : PtyTuple))]).sent = [Msg.ptyClose 5] ∧
    (onPtyExit 5 42 [(5, (⟨7, 42⟩ : PtyTuple))]).destroyed = [42] ∧
    mapGet (onPtyExit 5 42 [(5, (⟨7, 42⟩ : PtyTuple))]).map 5 = none ∧
    (∀ k, k ≠ 5 →
      mapGet (onPtyExit 5 42 [(5, (⟨7, 42⟩ : PtyTuple))]).map k =
        mapGet [(5, (⟨7, 42⟩ : PtyTuple))] k) :=
  onPtyExit_closes_session [(5, ⟨7, 42⟩)] 5 ⟨7, 42⟩ (by decide) rfl

/-- Claim C5: `close(id)` is idempotent — the first close on a registered
session destroys its handle and removes its registry entry, sending no
message; a further close of the same id, or a close of an id that was never
registered, logs one advisory and changes nothing. -/
theorem handlePtyClose_idempotent (m : Registry) (i : Nat) (tup : PtyTuple)
    (hnd : (m.map Prod.fst).Nodup) (h : mapGet m i = some tup) :
    handlePtyClose m i = ⟨mapDelete m i, [], [tup.ptyTerm], [], [], []⟩ ∧
    mapGet (mapDelete m i) i = none ∧
    handlePtyClose (mapDelete m i) i = ⟨mapDelete m i, [], [], [], [], [warnAbsent]⟩ ∧
    ∀ j, mapGet m j = none → handlePtyClose m j = ⟨m, [], [], [], [], [warnAbsent]⟩ := by
  have hdel := mapGet_mapDelete_self m i hnd
  refine ⟨by simp [handlePtyClose, h], hdel, by simp [handlePtyClose, hdel], ?_⟩
  intro j hj
  simp [handlePtyClose, hj]

theorem handlePtyClose_idempotent_witness :
    handlePtyClose [(1, (⟨7, 42⟩ : PtyTuple))] 1 =
      ⟨mapDelete [(1, (⟨7, 42⟩ : PtyTuple))] 1, [], [42], [], [], []⟩ ∧
    mapGet (mapDelete [(1, (⟨7, 42⟩ : PtyTuple))] 1) 1 = none ∧
    handlePtyClose (mapDelete [(1, (⟨7, 42⟩ : PtyTuple))] 1) 1 =
      ⟨mapDelete [(1, (⟨7, 42⟩ : PtyTuple))] 1, [], [], [], [], [warnAbsent]⟩ ∧
    (∀ j, mapGet [(1, (⟨7, 42⟩ : PtyTuple))] j = none →
      handlePtyClose [(1, (⟨7, 42⟩ : PtyTuple))] j =
        ⟨[(1, (⟨7, 42⟩ : PtyTuple))], [], [], [], [], [warnAbsent]⟩) :=
  handlePtyClose_idempotent [(1, ⟨7, 42⟩)] 1 ⟨7, 42⟩ (by decide) rfl

/-- Claim C6: `input` and `resize` on an id absent from the registry log one
advisory and do nothing — no exception, no message, no write or resize on any
pty, and the registry (hence every other session) is unchanged. -/
theorem handlePtyInput_resize_absent_noop (m : Registry) (i : Nat) (d : String)
    (columns rows : Nat) (h : mapGet m i = none) :
    handlePtyInput m i d = ⟨m, [], [], [], [], [warnAbsent]⟩ ∧
    handlePtyResize m i columns rows = ⟨m, [], [], [], [], [warnAbsent]⟩ := by
  constructor
  · simp [handlePtyInput, h]
  · simp [handlePtyResize, h]

theorem handlePtyInput_resize_absent_noop_witness :
    handlePtyInput [(1, (⟨7, 42⟩ : PtyTuple))] 2 "x" =
      ⟨[(1, (⟨7, 42⟩ : PtyTuple))], [], [], [], [], [warnAbsent]⟩ ∧
    handlePtyResize [(1, (⟨7, 42⟩ : PtyTuple))] 2 80 24 =
      ⟨[(1, (⟨7, 42⟩ : PtyTuple))], [], [], [], [], [warnAbsent]⟩ :=
  handlePtyInput_resize_absent_noop [(1, ⟨7, 42⟩)] 2 "x" 80 24 rfl

/-- Claim C4 counterexample: the claim that after removal any output or exit
event for that id is dropped with no Output or Close message is false.  Here
session 1 is closed (registry empty afterwards), yet a subsequently delivered
exit event for id 1 still sends a Close message carrying id 1, and a data
event still sends an Output message carrying id 1: the closure handlers never
consult the registry. -/
theorem removed_session_events_still_send :
    (handlePtyClose [(1, (⟨7, 42⟩ : PtyTuple))] 1).map = [] ∧
    mapGet (handlePtyClose [(1, (⟨7, 42⟩ : PtyTuple))] 1).map 1 = none ∧
    (onPtyExit 1 42 (handlePtyClose [(1, (⟨7, 42⟩ : PtyTuple))] 1).map).sent =
      [Msg.ptyClose 1] ∧
    (onPtyData 1 "x" (handlePtyClose [(1, (⟨7, 42⟩ : PtyTuple))] 1).map).sent =
      [Msg.ptyOutput 1 "x"] :=
  ⟨rfl, rfl, rfl, rfl⟩

/-- Claim C4 as amended: after a session id has been removed from the
registry, UI-side input, resize and close requests for it are dropped silently
(one advisory, no message, no state change, no crash); but process output and
exit events are not dropped — a data event still sends an Output message and
an exit event still sends a Close message carrying the removed id, and the
exit event destroys the captured handle again. -/
theorem events_after_removal (m : Registry) (i : Nat) (d : String)
    (term columns rows : Nat) (h : mapGet m i = none) :
    handlePtyInput m i d = ⟨m, [], [], [], [], [warnAbsent]⟩ ∧
    handlePtyResize m i columns rows = ⟨m, [], [], [], [], [warnAbsent]⟩ ∧
    handlePtyClose m i = ⟨m, [], [], [], [], [warnAbsent]⟩ ∧
    (onPtyData i d m).sent = [Msg.ptyOutput i d] ∧
    (onPtyExit i term m).sent = [Msg.ptyClose i] ∧
    (onPtyExit i term m).destroyed = [term] := by
  refine ⟨?_, ?_, ?_, rfl, rfl, rfl⟩
  · simp [handlePtyInput, h]
  · simp [handlePtyResize, h]
  · simp [handlePtyClose, h]

theorem events_after_removal_witness :
    handlePtyInput [] 1 "x" = ⟨[], [], [], [], [], [warnAbsent]⟩ ∧
    handlePtyResize [] 1 80 24 = ⟨[], [], [], [], [], [warnAbsent]⟩ ∧
    handlePtyClose [] 1 = ⟨[], [], [], [], [], [warnAbsent]⟩ ∧
    (onPtyData 1 "x" []).sent = [Msg.ptyOutput 1 "x"] ∧
    (onPtyExit 1 42 []).sent = [Msg.ptyClose 1] ∧
    (onPtyExit 1 42 []).destroyed = [42] :=
  events_after_removal [] 1 "x" 42 80 24 rfl

/-- Claim C7: when `pty.spawn` fails, `createPty` surfaces the failure
synchronously to its caller, no session is registered (the state is
unchanged), and no message — in particular no `PTY_CREATED` reply — is sent
for that request. -/
theorem spawnFail_synchronous (s : MainState) (themeList : List (String × ThemeJson))
    (senderWindowId : Nat) (command : String) (args : List String)
    (columns rows : Nat) :
    createPty s senderWindowId .fail = .error () ∧
    handleAsyncIpc s themeList senderWindowId .fail
        (.ptyCreate command args columns rows) =
      ⟨true, s, [], [], [], [], [incomingLog]⟩ :=
  ⟨rfl, rfl⟩

/-- Claim C8: a message whose type tag is not one of the recognized kinds is
logged and dropped by `handleAsyncIpc`: no registry mutation, no reply, no
destroy/write/resize, and no exception escapes. -/
theorem unknownTag_dropped (s : MainState) (themeList : List (String × ThemeJson))
    (senderWindowId : Nat) (spawn : SpawnResult) (tag : Nat) :
    handleAsyncIpc s themeList senderWindowId spawn (.unknownTag tag) =
      ⟨false, s, [], [], [], [], [incomingLog]⟩ :=
  rfl

/-- Claim C10: for tip count `n > 0` and tip index `i < n`, the next-button
update `(i+1) % n` and the previous-button update `(i+n-1) % n` are mutual
inverses and both keep the index inside `[0, n)`. -/
theorem tipIndex_next_prev_inverse (n i : Nat) (hn : 0 < n) (hi : i < n) :
    previousTipIndex n (nextTipIndex n i) = i ∧
    nextTipIndex n (previousTipIndex n i) = i ∧
    nextTipIndex n i < n ∧ previousTipIndex n i < n := by
  unfold nextTipIndex previousTipIndex
  refine ⟨?_, ?_, Nat.mod_lt _ hn, Nat.mod_lt _ hn⟩
  · have h1 : (i + 1) % n + n - 1 = (i + 1) % n + (n - 1) := by omega
    have h2 : i + 1 + (n - 1) = i + n := by omega
    rw [h1, Nat.mod_add_mod, h2, Nat.add_mod_right, Nat.mod_eq_of_lt hi]
  · have h3 : i + n - 1 + 1 = i + n := by omega
    rw [Nat.mod_add_mod, h3, Nat.add_mod_right, Nat.mod_eq_of_lt hi]

/-! ### Window cleanup: the fold over snapshotted keys equals a filter -/

theorem cleanUpFold_acc (windowId : Nat) (ks : List Nat) (m : Registry)
    (ds : List Nat) :
    ks.foldl (cleanUpStep windowId) (m, ds) =
      ((ks.foldl (cleanUpStep windowId) (m, [])).1,
        ds ++ (ks.foldl (cleanUpStep windowId) (m, [])).2) := by
  induction ks generalizing m ds with
  | nil => simp
  | cons k rest ih =>
    simp only [List.foldl_cons]
    cases hg : mapGet m k with
    | none =>
      have h1 : cleanUpStep windowId (m, ds) k = (m, ds) := by
        simp [cleanUpStep, hg]
      have h2 : cleanUpStep windowId (m, []) k = (m, []) := by
        simp [cleanUpStep, hg]
      rw [h1, h2]
      exact ih m ds
    | some tup =>
      by_cases hw : tup.windowId = windowId
      · have h1 : cleanUpStep windowId (m, ds) k =
            (mapDelete m k, ds ++ [tup.ptyTerm]) := by
          simp [cleanUpStep, hg, hw]
        have h2 : cleanUpStep windowId (m, []) k =
            (mapDelete m k, [tup.ptyTerm]) := by
          simp [cleanUpStep, hg, hw]
        rw [h1, h2, ih (mapDelete m k) (ds ++ [tup.ptyTerm]),
          ih (mapDelete m k) [tup.ptyTerm]]
        simp
      · have h1 : cleanUpStep windowId (m, ds) k = (m, ds) := by
          simp [cleanUpStep, hg, hw]
        have h2 : cleanUpStep windowId (m, []) k = (m, []) := by
          simp [cleanUpStep, hg, hw]
        rw [h1, h2]
        exact ih m ds

theorem cleanUpFold_frame (windowId k1 : Nat) (v1 : PtyTuple) (ks : List Nat)
    (m : Registry) (ds : List Nat) (hk : k1 ∉ ks) :
    ks.foldl (cleanUpStep windowId) ((k1, v1) :: m, ds) =
      ((k1, v1) :: (ks.foldl (cleanUpStep windowId) (m, ds)).1,
        (ks.foldl (cleanUpStep windowId) (m, ds)).2) := by
  induction ks generalizing m ds with
  | nil => simp
  | cons k rest ih =>
    simp only [List.mem_cons, not_or] at hk
    obtain ⟨hk1, hk2⟩ := hk
    simp only [List.foldl_cons]
    cases hg : mapGet m k with
    | none =>
      have h1 : cleanUpStep windowId ((k1, v1) :: m, ds) k = ((k1, v1) :: m, ds) := by
        simp [cleanUpStep, mapGet, hk1, hg]
      have h2 : cleanUpStep windowId (m, ds) k = (m, ds) := by
        simp [cleanUpStep, hg]
      rw [h1, h2]
      exact ih m ds hk2
    | some tup =>
      by_cases hw : tup.windowId = windowId
      · have h1 : cleanUpStep windowId ((k1, v1) :: m, ds) k =
            ((k1, v1) :: mapDelete m k, ds ++ [tup.ptyTerm]) := by
          simp [cleanUpStep, mapGet, mapDelete, hk1, hg, hw]
        have h2 : cleanUpStep windowId (m, ds) k =
            (mapDelete m k, ds ++ [tup.ptyTerm]) := by
          simp [cleanUpStep, hg, hw]
        rw [h1, h2]
        exact ih (mapDelete m k) (ds ++ [tup.ptyTerm]) hk2
      · have h1 : cleanUpStep windowId ((k1, v1) :: m, ds) k = ((k1, v1) :: m, ds) := by
          simp [cleanUpStep, mapGet, hk1, hg, hw]
        have h2 : cleanUpStep windowId (m, ds) k = (m, ds) := by
          simp [cleanUpStep, hg, hw]
        rw [h1, h2]
        exact ih m ds hk2

theorem cleanUpPtyWindow_eq_filter (m : Registry) (windowId : Nat)
    (hnd : (m.map Prod.fst).Nodup) :
    cleanUpPtyWindow m windowId =
      (m.filter (fun p => p.2.windowId != windowId),
        (m.filter (fun p => p.2.windowId == windowId)).map (fun p => p.2.ptyTerm)) := by
  induction m with
  | nil => rfl
  | cons p rest ih =>
    obtain ⟨k, v⟩ := p
    simp only [List.map_cons, List.nodup_cons] at hnd
    obtain ⟨hk, hnd'⟩ := hnd
    have ihr := ih hnd'
    unfold cleanUpPtyWindow at ihr ⊢
    simp only [List.map_cons, List.foldl_cons]
    have hstep : cleanUpStep windowId ((k, v) :: rest, []) k =
        (if v.windowId = windowId then (rest, [v.ptyTerm])
          else ((k, v) :: rest, [])) := by
      simp [cleanUpStep, mapGet, mapDelete]
    rw [hstep]
    by_cases hw : v.windowId = windowId
    · rw [if_pos hw]
      rw [cleanUpFold_acc windowId (rest.map Prod.fst) rest [v.ptyTerm], ihr]
      simp [List.filter_cons, hw]
    · rw [if_neg hw]
      rw [cleanUpFold_frame windowId k v (rest.map Prod.fst) rest [] hk, ihr]
      simp [List.filter_cons, hw]

/-- Claim C1: running `cleanUpPtyWindow` for window `W` removes from the
registry, and destroys the handles of, exactly the sessions whose `windowId`
is `W`, while every session owned by another window stays in the registry
unmodified (the result is the filter of the original registry). -/
theorem cleanUpPtyWindow_partitions (m : Registry) (windowId : Nat)
    (hnd : (m.map Prod.fst).Nodup) :
    (cleanUpPtyWindow m windowId).1 = m.filter (fun p => p.2.windowId != windowId) ∧
    (cleanUpPtyWindow m windowId).2 =
      (m.filter (fun p => p.2.windowId == windowId)).map (fun p => p.2.ptyTerm) ∧
    ∀ k tup, ((k, tup) ∈ (cleanUpPtyWindow m windowId).1 ↔
      ((k, tup) ∈ m ∧ tup.windowId ≠ windowId)) := by
  have h := cleanUpPtyWindow_eq_filter m windowId hnd
  refine ⟨by rw [h], by rw [h], ?_⟩
  intro k tup
  rw [h]
  simp [List.mem_filter]

theorem cleanUpPtyWindow_partitions_witness :
    (cleanUpPtyWindow [(1, (⟨1, 10⟩ : PtyTuple)), (2, ⟨1, 11⟩), (3, ⟨2, 12⟩)] 1).1 =
      [(1, (⟨1, 10⟩ : PtyTuple)), (2, ⟨1, 11⟩), (3, ⟨2, 12⟩)].filter
        (fun p => p.2.windowId != 1) ∧
    (cleanUpPtyWindow [(1, (⟨1, 10⟩ : PtyTuple)), (2, ⟨1, 11⟩), (3, ⟨2, 12⟩)] 1).2 =
      ([(1, (⟨1, 10⟩ : PtyTuple)), (2, ⟨1, 11⟩), (3, ⟨2, 12⟩)].filter
        (fun p => p.2.windowId == 1)).map (fun p => p.2.ptyTerm) ∧
    ∀ k tup,
      ((k, tup) ∈ (cleanUpPtyWindow
          [(1, (⟨1, 10⟩ : PtyTuple)), (2, ⟨1, 11⟩), (3, ⟨2, 12⟩)] 1).1 ↔
        ((k, tup) ∈ [(1, (⟨1, 10⟩ : PtyTuple)), (2, ⟨1, 11⟩), (3, ⟨2, 12⟩)] ∧
          tup.windowId ≠ 1)) :=
  cleanUpPtyWindow_partitions [(1, ⟨1, 10⟩), (2, ⟨1, 11⟩), (3, ⟨2, 12⟩)] 1 (by decide)

/-! ### Session id allocation over whole operation sequences -/

theorem runOp_counter_le (s : MainState) (op : Op) :
    s.ptyCounter ≤ (runOp s op).1.ptyCounter := by
  cases op with
  | create wid spawn =>
    cases spawn with
    | ok term => simp [runOp, createPty]
    | fail => simp [runOp, createPty]
  | closeReq id => simp [runOp]
  | inputReq id data => simp [runOp]
  | resizeReq id columns rows => simp [runOp]
  | dataEvt id data => simp [runOp]
  | exitEvt id term => simp [runOp]
  | windowClosed wid => simp [runOp]

theorem runOps_counter_le (s : MainState) (ops : List Op) :
    s.ptyCounter ≤ (runOps s ops).1.ptyCounter := by
  induction ops generalizing s with
  | nil => exact le_refl _
  | cons op rest ih =>
    calc s.ptyCounter ≤ (runOp s op).1.ptyCounter := runOp_counter_le s op
      _ ≤ (runOps (runOp s op).1 rest).1.ptyCounter := ih _
      _ = (runOps s (op :: rest)).1.ptyCounter := rfl

theorem runOp_ids (s : MainState) (op : Op) :
    ∀ i ∈ (runOp s op).2,
      i = s.ptyCounter + 1 ∧ (runOp s op).1.ptyCounter = s.ptyCounter + 1 := by
  intro i hi
  cases op with
  | create wid spawn =>
    cases spawn with
    | fail => simp [runOp, createPty] at hi
    | ok term =>
      simp [runOp, createPty] at hi
      exact ⟨hi, rfl⟩
  | closeReq id => simp [runOp] at hi
  | inputReq id data => simp [runOp] at hi
  | resizeReq id columns rows => simp [runOp] at hi
  | dataEvt id data => simp [runOp] at hi
  | exitEvt id term => simp [runOp] at hi
  | windowClosed wid => simp [runOp] at hi

theorem runOps_ids_bounds (s : MainState) (ops : List Op) :
    ∀ i ∈ (runOps s ops).2,
      s.ptyCounter < i ∧ i ≤ (runOps s ops).1.ptyCounter := by
  induction ops generalizing s with
  | nil => intro i hi; simp [runOps] at hi
  | cons op rest ih =>
    intro i hi
    have hsplit : (runOps s (op :: rest)).2 =
        (runOp s op).2 ++ (runOps (runOp s op).1 rest).2 := rfl
    have hstate : (runOps s (op :: rest)).1 = (runOps (runOp s op).1 rest).1 := rfl
    rw [hsplit] at hi
    rw [hstate]
    rcases List.mem_append.mp hi with h1 | h1
    · obtain ⟨heq, hcnt⟩ := runOp_ids s op i h1
      have hrest := runOps_counter_le (runOp s op).1 rest
      constructor
      · omega
      · omega
    · obtain ⟨hlt, hle⟩ := ih (runOp s op).1 i h1
      have hop := runOp_counter_le s op
      exact ⟨lt_of_le_of_lt hop hlt, hle⟩

theorem runOps_ids_sorted (s : MainState) (ops : List Op) :
    List.Pairwise (· < ·) (runOps s ops).2 := by
  induction ops generalizing s with
  | nil => simp [runOps]
  | cons op rest ih =>
    have hsplit : (runOps s (op :: rest)).2 =
        (runOp s op).2 ++ (runOps (runOp s op).1 rest).2 := rfl
    rw [hsplit]
    apply List.pairwise_append.mpr
    refine ⟨?_, ih _, ?_⟩
    · cases op with
      | create wid spawn =>
        cases spawn with
        | ok term => simp [runOp, createPty]
        | fail => simp [runOp, createPty]
      | closeReq id => simp [runOp]
      | inputReq id data => simp [runOp]
      | resizeReq id columns rows => simp [runOp]
      | dataEvt id data => simp [runOp]
      | exitEvt id term => simp [runOp]
      | windowClosed wid => simp [runOp]
    · intro a ha b hb
      obtain ⟨heq, hcnt⟩ := runOp_ids s op a ha
      obtain ⟨hlt, _⟩ := runOps_ids_bounds (runOp s op).1 rest b hb
      omega

theorem runOps_append (s : MainState) (l1 l2 : List Op) :
    runOps s (l1 ++ l2) =
      ((runOps (runOps s l1).1 l2).1,
        (runOps s l1).2 ++ (runOps (runOps s l1).1 l2).2) := by
  induction l1 generalizing s with
  | nil => rfl
  | cons op rest ih =>
    have h1 : runOps s ((op :: rest) ++ l2) =
        ((runOps (runOp s op).1 (rest ++ l2)).1,
          (runOp s op).2 ++ (runOps (runOp s op).1 (rest ++ l2)).2) := rfl
    have h2 : runOps s (op :: rest) =
        ((runOps (runOp s op).1 rest).1,
          (runOp s op).2 ++ (runOps (runOp s op).1 rest).2) := rfl
    rw [h1, h2, ih (runOp s op).1]
    simp [List.append_assoc]

/-- Claim C2: over any operation sequence in one process lifetime, the session
ids returned by `createPty` are strictly increasing in call order (hence
pairwise distinct), and an id assigned during a prefix of the run — in
particular one whose session has since been removed — is never assigned again
during the rest of the run. -/
theorem createPty_ids_monotone (s : MainState) (pre post : List Op) :
    List.Pairwise (· < ·) (runOps s (pre ++ post)).2 ∧
    (runOps s (pre ++ post)).2 =
      (runOps s pre).2 ++ (runOps (runOps s pre).1 post).2 ∧
    ∀ i ∈ (runOps s pre).2, i ∉ (runOps (runOps s pre).1 post).2 := by
  refine ⟨runOps_ids_sorted s (pre ++ post), ?_, ?_⟩
  · rw [runOps_append]
  · intro i hi hcontra
    obtain ⟨_, hle⟩ := runOps_ids_bounds s pre i hi
    obtain ⟨hlt, _⟩ := runOps_ids_bounds (runOps s pre).1 post i hcontra
    omega

/-! ### Theme scanning -/

theorem themeMapSet_not_mem (acc : List (String × ThemeJson)) (k : String)
    (v : ThemeJson) (h : ∀ p ∈ acc, p.1 ≠ k) :
    themeMapSet acc k v = acc ++ [(k, v)] := by
  induction acc with
  | nil => rfl
  | cons p rest ih =>
    obtain ⟨k', v'⟩ := p
    have hk : k' ≠ k := h (k', v') (List.mem_cons_self _ _)
    simp only [themeMapSet, if_neg hk, List.cons_append]
    rw [ih (fun q hq => h q (List.mem_cons_of_mem _ hq))]

theorem scanThemesLoop_eq (entries : List DirEntry) :
    ∀ acc : List (String × ThemeJson),
      (entries.map entryItem).Nodup →
      (∀ e ∈ entries, ∀ p ∈ acc, p.1 ≠ entryItem e) →
      scanThemesLoop entries acc = acc ++ entries.filterMap validEntry := by
  induction entries with
  | nil => intro acc _ _; simp [scanThemesLoop]
  | cons e rest ih =>
    intro acc hnd hdisj
    simp only [List.map_cons, List.nodup_cons] at hnd
    obtain ⟨hhead, hnd'⟩ := hnd
    cases e with
    | unreadable item =>
      simp only [scanThemesLoop]
      rw [ih acc hnd' (fun e' he' p hp => hdisj e' (List.mem_cons_of_mem _ he') p hp)]
      simp [validEntry]
    | parsed item info =>
      by_cases hv : validateThemeInfo info
      · simp only [scanThemesLoop, if_pos hv]
        have hset : themeMapSet acc item info = acc ++ [(item, info)] := by
          apply themeMapSet_not_mem
          intro p hp
          exact hdisj (.parsed item info) (List.mem_cons_self _ _) p hp
        rw [hset, ih (acc ++ [(item, info)]) hnd' ?_]
        · simp [List.filterMap_cons, validEntry, hv]
        · intro e' he' p hp
          rcases List.mem_append.mp hp with h1 | h1
          · exact hdisj e' (List.mem_cons_of_mem _ he') p h1
          · simp only [List.mem_singleton] at h1
            subst h1
            intro hcontra
            apply hhead
            show item ∈ List.map entryItem rest
            have h5 : item = entryItem e' := hcontra
            rw [h5]
            exact List.mem_map_of_mem entryItem he'
      · simp only [scanThemesLoop, if_neg hv]
        rw [ih acc hnd' (fun e' he' p hp => hdisj e' (List.mem_cons_of_mem _ he') p hp)]
        simp [List.filterMap_cons, validEntry, hv]

theorem validEntry_eq_some (e : DirEntry) (item : String) (info : ThemeJson) :
    validEntry e = some (item, info) ↔
      (e = DirEntry.parsed item info ∧ validateThemeInfo info = true) := by
  cases e with
  | unreadable i => simp [validEntry]
  | parsed i inf =>
    by_cases hv : validateThemeInfo inf
    · simp only [validEntry, if_pos hv, Option.some.injEq, Prod.mk.injEq,
        DirEntry.parsed.injEq]
      constructor
      · rintro ⟨rfl, rfl⟩
        exact ⟨⟨rfl, rfl⟩, hv⟩
      · rintro ⟨⟨rfl, rfl⟩, _⟩
        exact ⟨rfl, rfl⟩
    · simp only [validEntry, if_neg hv]
      constructor
      · intro h
        exact absurd h (by simp)
      · rintro ⟨heq, hval⟩
        injection heq with h1 h2
        subst h2
        exact absurd hval hv

/-- Claim C9: the theme scan over an existing directory completes and keeps
exactly the entries that parse and carry a non-empty string `name` field,
skipping every invalid entry per-entry; but when the themes directory is
missing, `scanThemes` falls off the end of the function and yields `undefined`
(`none`) instead of an (empty) collection — the `code_bug` of this claim. -/
theorem scanThemes_skips_invalid (entries : List DirEntry)
    (hnd : (entries.map entryItem).Nodup) :
    scanThemes none = none ∧
    scanThemes (some entries) = some (entries.filterMap validEntry) ∧
    ∀ item info, ((item, info) ∈ entries.filterMap validEntry ↔
      (DirEntry.parsed item info ∈ entries ∧ validateThemeInfo info = true)) := by
  refine ⟨rfl, ?_, ?_⟩
  · show some (scanThemesLoop entries []) = _
    rw [scanThemesLoop_eq entries [] hnd (by intro e _ p hp; simp at hp)]
    rfl
  · intro item info
    rw [List.mem_filterMap]
    constructor
    · rintro ⟨e, he, hsome⟩
      obtain ⟨rfl, hval⟩ := (validEntry_eq_some e item info).mp hsome
      exact ⟨he, hval⟩
    · rintro ⟨he, hval⟩
      exact ⟨_, he, (validEntry_eq_some _ item info).mpr ⟨rfl, hval⟩⟩

theorem scanThemes_skips_invalid_witness :
    scanThemes none = none ∧
    scanThemes (some [DirEntry.parsed "default" ⟨some "Default"⟩,
        DirEntry.parsed "noname" ⟨none⟩,
        DirEntry.parsed "empty" ⟨some ""⟩,
        DirEntry.unreadable "broken"]) =
      some ([DirEntry.parsed "default" ⟨some "Default"⟩,
        DirEntry.parsed "noname" ⟨none⟩,
        DirEntry.parsed "empty" ⟨some ""⟩,
        DirEntry.unreadable "broken"].filterMap validEntry) ∧
    ∀ item info, ((item, info) ∈
        [DirEntry.parsed "default" ⟨some "Default"⟩,
          DirEntry.parsed "noname" ⟨none⟩,
          DirEntry.parsed "empty" ⟨some ""⟩,
          DirEntry.unreadable "broken"].filterMap validEntry ↔
      (DirEntry.parsed item info ∈
          [DirEntry.parsed "default" ⟨some "Default"⟩,
            DirEntry.parsed "noname" ⟨none⟩,
            DirEntry.parsed "empty" ⟨some ""⟩,
            DirEntry.unreadable "broken"] ∧ validateThemeInfo info = true)) :=
  scanThemes_skips_invalid
    [DirEntry.parsed "default" ⟨some "Default"⟩, DirEntry.parsed "noname" ⟨none⟩,
      DirEntry.parsed "empty" ⟨some ""⟩, DirEntry.unreadable "broken"]
    (by decide)

theorem tipIndex_next_prev_inverse_witness :
    previousTipIndex 3 (nextTipIndex 3 2) = 2 ∧
    nextTipIndex 3 (previousTipIndex 3 2) = 2 ∧
    nextTipIndex 3 2 < 3 ∧ previousTipIndex 3 2 < 3 :=
  tipIndex_next_prev_inverse 3 2 (by decide) (by decide)

end Extraterm
